import Mathlib

/-!
Verification development for the english-quiz backend.

The development shallowly embeds the two source files:
  * `services/aiService.js` (`generateQuizFromText`: input validation, the
    OpenRouter call, JSON extraction from the model output, quiz validation,
    and the catch-block error mapping), and
  * `index.js` (the in-memory server state `currentQuiz` / `quizResults`
    together with the `POST /api/admin/quiz` and `POST /api/quiz/submit`
    handlers).

JavaScript values coming out of `JSON.parse` are modelled by the inductive
type `Json`; the external pieces (the `axios` network call, the wall clock)
are parameters of the embedded functions.  JavaScript numbers are modelled
as exact rationals, and the one place where IEEE-754 double rounding is
observable (the percentage computation in the submit handler) is modelled
by an exact rational implementation of round-to-nearest-even binary64
rounding (`fl` below).
-/

/-- Model of a JavaScript value produced by `JSON.parse`: null, booleans,
numbers, strings, arrays and objects (field list in insertion order,
duplicate keys already collapsed, later occurrence winning, as in JS). -/
inductive Json where
  | null
  | bool (b : Bool)
  | num (q : ℚ)
  | str (s : String)
  | arr (elems : List Json)
  | obj (fields : List (String × Json))
  deriving Repr

/-- Character constant for the left brace (kept out of literals). -/
def braceL : Char := Char.ofNat 123

/-- Character constant for the right brace. -/
def braceR : Char := Char.ofNat 125

/-- Character constant for the backtick. -/
def tickC : Char := Char.ofNat 96

/-- Truthiness of a JavaScript value (`!v` in the source is `¬ jsTruthy v`).
The falsy JSON-representable values are `null`, `false`, `0` and `""`;
arrays and objects are always truthy.  (`NaN`, also falsy, has no exact
rational representative and never arises in the modelled code paths.) -/
def jsTruthy : Json → Bool
  | .null => false
  | .bool b => b
  | .num q => decide (q ≠ 0)
  | .str s => decide (s ≠ "")
  | .arr _ => true
  | .obj _ => true

/-- Truthiness of a possibly-`undefined` value (`none` models `undefined`). -/
def jsTruthyOpt : Option Json → Bool
  | none => false
  | some v => jsTruthy v

/-- Whether a value is a JavaScript object literal. -/
def Json.isObj : Json → Bool
  | .obj _ => true
  | _ => false

/-- Whether a value is an array (`Array.isArray` in the source). -/
def Json.isArr : Json → Bool
  | .arr _ => true
  | _ => false

/-- Lookup of a key in an object's field list (first match; the parser has
already collapsed duplicates). -/
def lookupField : List (String × Json) → String → Option Json
  | [], _ => none
  | (k2, v) :: rest, k => if k2 = k then some v else lookupField rest k

/-- Property access `v.k` on a value that is not `null`: objects look the
key up, primitives and arrays yield `undefined` (`none`).  Access on `null`
throws in JS and is modelled separately where the source can reach it. -/
def getField : Json → String → Option Json
  | .obj kvs, k => lookupField kvs k
  | _, _ => none

/-- Strict equality `===` between two JSON-derived values.  Primitives
compare by value; arrays and objects coming from distinct `JSON.parse`
nodes are distinct references, hence never strictly equal. -/
def jsStrictEq : Json → Json → Bool
  | .str a, .str b => a = b
  | .num a, .num b => a = b
  | .bool a, .bool b => a = b
  | .null, .null => true
  | _, _ => false

/-- Strict equality where either side may be `undefined` (`none`). -/
def jsStrictEqOpt : Option Json → Option Json → Bool
  | some a, some b => jsStrictEq a b
  | none, none => true
  | _, _ => false

/-- Whether `q.options.includes(q.correct)` holds: membership by `===`. -/
def jsIncludes (elems : List Json) (v : Json) : Bool :=
  elems.any (fun e => jsStrictEq e v)

/-- JSON whitespace accepted by `JSON.parse` around tokens
(space, tab, line feed, carriage return). -/
def jsonWsChar (c : Char) : Bool :=
  c = ' ' ∨ c = '\t' ∨ c = '\n' ∨ c = '\r'

/-- Drop leading JSON whitespace. -/
def skipWs : List Char → List Char
  | c :: cs => if jsonWsChar c then skipWs cs else c :: cs
  | [] => []

/-- Insert a key into an object's field list, JS-style: an existing key
keeps its position but its value is overwritten. -/
def setKey : List (String × Json) → String → Json → List (String × Json)
  | [], k, v => [(k, v)]
  | (k2, v2) :: rest, k, v =>
    if k2 = k then (k2, v) :: rest else (k2, v2) :: setKey rest k v

/-- Parse the body of a JSON string literal after the opening quote,
accumulating characters until the closing quote.  The common escapes are
supported; `\u` escapes are rejected, and raw control characters are
accepted verbatim (neither form occurs in any input this development
evaluates the parser on). -/
def parseStrAux : List Char → List Char → Option (String × List Char)
  | acc, '"' :: rest => some (String.mk acc.reverse, rest)
  | acc, '\\' :: c :: rest =>
    if c = '"' then parseStrAux ('"' :: acc) rest
    else if c = '\\' then parseStrAux ('\\' :: acc) rest
    else if c = '/' then parseStrAux ('/' :: acc) rest
    else if c = 'b' then parseStrAux ('\x08' :: acc) rest
    else if c = 'f' then parseStrAux ('\x0C' :: acc) rest
    else if c = 'n' then parseStrAux ('\n' :: acc) rest
    else if c = 'r' then parseStrAux ('\r' :: acc) rest
    else if c = 't' then parseStrAux ('\t' :: acc) rest
    else none
  | _, '\\' :: [] => none
  | acc, c :: rest => parseStrAux (c :: acc) rest
  | _, [] => none

/-- Split leading decimal digits off a character list. -/
def takeDigits : List Char → List Char × List Char
  | c :: cs =>
    if c.isDigit then
      let (ds, rest) := takeDigits cs
      (c :: ds, rest)
    else ([], c :: cs)
  | [] => ([], [])

/-- Numeric value of a digit list. -/
def digitsToNat (ds : List Char) : ℕ :=
  ds.foldl (fun acc c => acc * 10 + (c.toNat - 48)) 0

/-- Parse a JSON number (optional minus, integer part, optional fraction)
into an exact rational.  Exponent forms are rejected and the no-leading-zero
rule is not enforced; no input this development evaluates the parser on
contains a number at all.  (JS stores the nearest binary64 instead of the
exact rational; no modelled code path observes the difference.) -/
def parseNumber (cs : List Char) : Option (ℚ × List Char) :=
  let (neg, cs1) :=
    match cs with
    | '-' :: rest => (true, rest)
    | _ => (false, cs)
  let (intDs, cs2) := takeDigits cs1
  if intDs.isEmpty then none
  else
    let intPart : ℚ := (digitsToNat intDs : ℚ)
    let (val, rest) :=
      match cs2 with
      | '.' :: cs3 =>
        let (fracDs, cs4) := takeDigits cs3
        if fracDs.isEmpty then (none, cs2)
        else
          (some (intPart + (digitsToNat fracDs : ℚ) / ((10 : ℚ) ^ fracDs.length)), cs4)
      | _ => (some intPart, cs2)
    match val with
    | none => none
    | some v => some (if neg then -v else v, rest)

mutual

/-- Parse one JSON value from the input (fuel-bounded recursion; the fuel
passed at top level always suffices because every recursive call is made
after consuming at least one input character). -/
def parseVal : ℕ → List Char → Option (Json × List Char)
  | 0, _ => none
  | fuel + 1, cs =>
    match skipWs cs with
    | 'n' :: 'u' :: 'l' :: 'l' :: rest => some (.null, rest)
    | 't' :: 'r' :: 'u' :: 'e' :: rest => some (.bool true, rest)
    | 'f' :: 'a' :: 'l' :: 's' :: 'e' :: rest => some (.bool false, rest)
    | '"' :: rest =>
      match parseStrAux [] rest with
      | some (s, rest2) => some (.str s, rest2)
      | none => none
    | c :: rest =>
      if c = braceL then parseObjBody fuel (skipWs rest) []
      else if c = '[' then parseArrBody fuel (skipWs rest) []
      else
        match parseNumber (c :: rest) with
        | some (q, rest2) => some (.num q, rest2)
        | none => none
    | [] => none

/-- Parse the members of an object after the opening brace (the input has
already been whitespace-stripped).  Called with an empty accumulator right
after the brace and with a non-empty one after each comma, so a closing
brace is accepted only in the first case (no trailing comma). -/
def parseObjBody : ℕ → List Char → List (String × Json) → Option (Json × List Char)
  | 0, _, _ => none
  | _ + 1, [], _ => none
  | fuel + 1, c :: rest, acc =>
    if c = braceR ∧ acc.isEmpty then some (.obj [], rest)
    else if c = '"' then
      match parseStrAux [] rest with
      | some (k, rest2) =>
        match skipWs rest2 with
        | ':' :: rest3 =>
          match parseVal fuel rest3 with
          | some (v, rest4) =>
            match skipWs rest4 with
            | ',' :: rest5 => parseObjBody fuel (skipWs rest5) (setKey acc k v)
            | c2 :: rest5 =>
              if c2 = braceR then some (.obj (setKey acc k v), rest5) else none
            | [] => none
          | none => none
        | _ => none
      | none => none
    else none

/-- Parse the elements of an array after the opening bracket (the input has
already been whitespace-stripped). -/
def parseArrBody : ℕ → List Char → List Json → Option (Json × List Char)
  | 0, _, _ => none
  | _ + 1, [], _ => none
  | fuel + 1, c :: rest, acc =>
    if c = ']' ∧ acc.isEmpty then some (.arr [], rest)
    else
      match parseVal fuel (c :: rest) with
      | some (v, rest2) =>
        match skipWs rest2 with
        | ',' :: rest3 => parseArrBody fuel (skipWs rest3) (acc ++ [v])
        | ']' :: rest3 => some (.arr (acc ++ [v]), rest3)
        | _ => none
      | none => none

end

/-- Model of `JSON.parse`: parse one value and require only whitespace to
remain; `none` models a thrown `SyntaxError`. -/
def jsonParse (s : String) : Option Json :=
  match parseVal (s.length + 2) s.data with
  | some (j, rest) => if (skipWs rest).isEmpty then some j else none
  | none => none

/-- Whether `pat` is a prefix of `cs`. -/
def startsWithChars : List Char → List Char → Bool
  | _, [] => true
  | [], _ :: _ => false
  | c :: cs, p :: ps => p = c ∧ startsWithChars cs ps

/-- Index of the first occurrence of `pat` inside `hay` (leftmost match,
as a JS regex search). -/
def findSubIdx (hay pat : List Char) : Option ℕ :=
  if startsWithChars hay pat then some 0
  else
    match hay with
    | [] => none
    | _ :: rest => (findSubIdx rest pat).map (fun i => i + 1)

/-- Whether `pat` occurs inside `s` (`String.prototype.includes`). -/
def strContains (s pat : String) : Bool :=
  (findSubIdx s.data pat.data).isSome

/-- Index of the last occurrence of character `c` in `cs`. -/
def findLastIdx : List Char → Char → Option ℕ
  | [], _ => none
  | c2 :: rest, c =>
    match findLastIdx rest c with
    | some j => some (j + 1)
    | none => if c2 = c then some 0 else none

/-- Whole-match text (`match[0]`) of the fenced-block regex from line 107
of the service.  The match starts at the first occurrence of the literal
fence opener and, because the inner quantifier is lazy, ends at the first
closing triple backtick after it; `match[0]` includes both fences. -/
def fencedJsonMatch (content : String) : Option String :=
  let cs := content.data
  match findSubIdx cs "```json".data with
  | none => none
  | some i =>
    match findSubIdx (cs.drop (i + 7)) "```".data with
    | none => none
    | some k => some (String.mk ((cs.drop i).take (7 + k + 3)))

/-- Whole-match text (`match[0]`) of the greedy brace regex from line 110
of the service: the span from the first left brace to the last right brace,
when the latter comes after the former. -/
def braceMatch (content : String) : Option String :=
  let cs := content.data
  match findSubIdx cs [braceL] with
  | none => none
  | some i =>
    match findLastIdx cs braceR with
    | none => none
    | some j => if i < j then some (String.mk ((cs.drop i).take (j + 1 - i))) else none

/-- Model of the response extractor, lines 97-126 of the service: try a
direct `JSON.parse` of the whole text; failing that, find a fenced JSON
block or, failing that, a brace span, and `JSON.parse` `jsonMatch[0]` — the
WHOLE regex match, which for the fenced regex still carries the backtick
fences.  The second error message carries the engine's `SyntaxError` text
after the colon in the source; the model keeps only the fixed part, and
every theorem about it looks only at that fixed part. -/
def extractQuizObj (content : String) : Except String Json :=
  match jsonParse content with
  | some j => .ok j
  | none =>
    match (fencedJsonMatch content).orElse (fun _ => braceMatch content) with
    | none =>
      .error ("No JSON object found in model response. Raw content: " ++ content.take 200)
    | some m0 =>
      match jsonParse m0 with
      | some j => .ok j
      | none => .error "Failed to parse extracted JSON: "

/-- Property access `v.k` where `v` may be `null`: reading a property of
`null` throws a `TypeError` (message text as produced by V8). -/
def getProp (v : Json) (k : String) : Except String (Option Json) :=
  match v with
  | .null => .error ("Cannot read properties of null (reading '" ++ k ++ "')")
  | .obj kvs => .ok (lookupField kvs k)
  | _ => .ok none

mutual

/-- String coercion applied by the template literal in the validator's
third error message (`String(v)`).  Non-integral number formatting is
approximated (no claim exercises it); array elements coerce recursively
with `null` rendered empty, objects render as `[object Object]`. -/
def jsDisplay : Json → String
  | .str s => s
  | .num q => if q.den = 1 then toString q.num else toString q
  | .bool true => "true"
  | .bool false => "false"
  | .null => "null"
  | .arr l => String.intercalate "," (jsDisplayList l)
  | .obj _ => "[object Object]"

/-- Coercions of the elements of an array being joined by `,`. -/
def jsDisplayList : List Json → List String
  | [] => []
  | .null :: rest => "" :: jsDisplayList rest
  | v :: rest => jsDisplay v :: jsDisplayList rest

end

/-- Validation of the question at (0-based) index `i`, lines 147-160 of
the service: the four fields must be truthy, `options` must be an array of
exactly 4 entries, and `correct` must be `===`-included in `options`.
Reading `q.word` on a `null` question throws.  The final wildcard arm is
unreachable: it is guarded by the two preceding checks. -/
def checkQuestion (i : ℕ) (q : Json) : Except String Unit :=
  match getProp q "word" with
  | .error m => .error m
  | .ok w =>
    let qu := getField q "question"
    let op := getField q "options"
    let co := getField q "correct"
    if ¬ (jsTruthyOpt w ∧ jsTruthyOpt qu ∧ jsTruthyOpt op ∧ jsTruthyOpt co) then
      .error ("Question " ++ toString (i + 1) ++ " is missing required fields")
    else
    let optsOk : Bool := match op with | some (.arr l) => l.length == 4 | _ => false
    if ¬ optsOk then
      .error ("Question " ++ toString (i + 1) ++ " must have exactly 4 options")
    else
      match op, co with
      | some (.arr l), some c =>
        if ¬ jsIncludes l c then
          .error ("Question " ++ toString (i + 1) ++ " correct answer \"" ++
            jsDisplay c ++ "\" not found in options")
        else .ok ()
      | _, _ => .ok ()

/-- Validation loop over the question list, starting at index `i`. -/
def checkAll : ℕ → List Json → Except String Unit
  | _, [] => .ok ()
  | i, q :: rest =>
    match checkQuestion i q with
    | .error m => .error m
    | .ok _ => checkAll (i + 1) rest

/-- Model of the quiz validator, lines 131-164 of the service: the parsed
object must carry a truthy array field `quiz` (reading it on `null`
throws), the array must be non-empty, and every question must pass
`checkQuestion`; on success the question array itself is returned. -/
def validateQuiz (quizObj : Json) : Except String (List Json) :=
  match getProp quizObj "quiz" with
  | .error m => .error m
  | .ok qf =>
    match qf with
    | some (.arr qs) =>
      if qs.length = 0 then .error "Quiz array is empty"
      else
        match checkAll 0 qs with
        | .error m => .error m
        | .ok _ => .ok qs
    | _ => .error "Invalid quiz format returned by model - missing quiz array"

/-- Shape of the error object thrown by `axios` (only the fields the catch
block of the service inspects). -/
structure AxiosError where
  responseStatus : Option ℕ
  responseErrMsg : Option String
  hasRequest : Bool
  code : Option String
  message : String

/-- An error reaching the catch block: either the axios error from the
network call or a plain `Error` thrown by the code inside the `try`. -/
inductive JsError where
  | axios (e : AxiosError)
  | plain (message : String)

/-- Final if/else chain of the catch block, lines 190-198 of the service. -/
def finalChain (code : Option String) (msg : String) : String :=
  if code = some "ECONNABORTED" then "API request timed out. Please try again later."
  else if strContains msg "API key" then msg
  else if strContains msg "JSON" then msg
  else "Failed to generate quiz: " ++ msg

/-- Model of the catch block, lines 166-198 of the service: axios errors
with a response map 401/429/400 to fixed messages and fall through to the
final chain otherwise; axios errors without a response but with a request
report no response; everything else goes through the final chain. -/
def catchHandler : JsError → String
  | .axios e =>
    match e.responseStatus with
    | some 401 => "API authentication failed. Please check your OPENROUTER_API_KEY."
    | some 429 => "API rate limit exceeded. Please try again later."
    | some 400 => "API request invalid: " ++ (e.responseErrMsg.getD "Bad request")
    | some _ => finalChain e.code e.message
    | none =>
      if e.hasRequest then
        "No response received from AI service. Please check your internet connection."
      else finalChain e.code e.message
  | .plain m => finalChain none m

/-- Characters removed by `String.prototype.trim` (ASCII part; the
Unicode whitespace cases never arise in the modelled inputs). -/
def jsWsChar (c : Char) : Bool :=
  c = ' ' ∨ c = '\t' ∨ c = '\n' ∨ c = '\r' ∨ c = '\x0b' ∨ c = '\x0c'

/-- Model of `String.prototype.trim`. -/
def jsTrim (s : String) : String :=
  String.mk (((s.data.dropWhile jsWsChar).reverse.dropWhile jsWsChar).reverse)

/-- Input guard of the service, line 9:
`!text || typeof text !== 'string' || text.trim().length < 20`.
Non-strings fail the `typeof` check; the empty string fails both the
truthiness and the length check; either way the same error is thrown. -/
def validGenInput : Json → Bool
  | .str s => 20 ≤ (jsTrim s).length
  | _ => false

/-- Body of the `try` block of the service (lines 53-164), with the
network call abstracted as its outcome: an axios error, or a successful
response whose `choices?.[0]?.message?.content` field is `none`
(absent) or the given string.  A falsy (absent or empty) content throws;
then extraction and validation run. -/
def pipelineTry (call : Except AxiosError (Option String)) : Except JsError (List Json) :=
  match call with
  | .error e => .error (.axios e)
  | .ok contentOpt =>
    match contentOpt with
    | none => .error (.plain "No content received from AI model")
    | some content =>
      if content = "" then .error (.plain "No content received from AI model")
      else
        match extractQuizObj content with
        | .error m => .error (.plain m)
        | .ok quizObj =>
          match validateQuiz quizObj with
          | .error m => .error (.plain m)
          | .ok quiz => .ok quiz

/-- Model of `generateQuizFromText` (the whole service function): input
validation and the API-key check happen outside the `try` and their
messages propagate unchanged; everything inside the `try` goes through the
catch block's mapping on failure. -/
def generateQuizFromText (text : Json) (apiKeySet : Bool)
    (call : Except AxiosError (Option String)) : Except String (List Json) :=
  if ¬ validGenInput text then
    .error "Input text must be a meaningful string (at least 20 characters)"
  else if ¬ apiKeySet then
    .error "API key is not configured. Please set OPENROUTER_API_KEY in your .env file."
  else
    match pipelineTry call with
    | .ok quiz => .ok quiz
    | .error e => .error (catchHandler e)

/-- Fuel-bounded base-2 logarithm on naturals (`natLog2Aux n n` computes
`Nat.log2 n` by structural recursion, so that proofs can evaluate it). -/
def natLog2Aux : ℕ → ℕ → ℕ
  | 0, _ => 0
  | fuel + 1, n => if 2 ≤ n then natLog2Aux fuel (n / 2) + 1 else 0

/-- Base-2 logarithm on naturals, kernel-reducible. -/
def natLog2 (n : ℕ) : ℕ :=
  natLog2Aux n n

/-- Floor of the base-2 logarithm of a positive rational: the candidate
from the bit lengths of numerator and denominator, corrected down by one
when the value lies below it. -/
def ratLog2 (q : ℚ) : ℤ :=
  let e0 : ℤ := (natLog2 q.num.toNat : ℤ) - (natLog2 q.den : ℤ)
  if q < (2 : ℚ) ^ e0 then e0 - 1 else e0

/-- Round a rational to the nearest integer, ties to even. -/
def roundEven (x : ℚ) : ℤ :=
  if x - (⌊x⌋ : ℚ) < 1 / 2 then ⌊x⌋
  else if 1 / 2 < x - (⌊x⌋ : ℚ) then ⌊x⌋ + 1
  else if ⌊x⌋ % 2 = 0 then ⌊x⌋ else ⌊x⌋ + 1

/-- Round a positive rational to the nearest IEEE-754 binary64 value
(round to nearest, ties to even), as an exact rational: round to the
nearest multiple of the unit in the last place at the value's binade,
clamped below at the subnormal unit.  Overflow is not modelled (no
modelled computation leaves the finite range). -/
def flPos (q : ℚ) : ℚ :=
  (roundEven (q / (2 : ℚ) ^ (max (ratLog2 q - 52) (-1074))) : ℚ) *
    (2 : ℚ) ^ (max (ratLog2 q - 52) (-1074))

/-- Round any rational to the nearest binary64 value. -/
def fl (q : ℚ) : ℚ :=
  if q = 0 then 0 else if 0 < q then flPos q else -flPos (-q)

/-- Exact model of `Math.round((score / total) * 100)` from line 263 of
`index.js`: two binary64 roundings (the division and the multiplication by
the exactly representable `100`; `score` and `total` are small integers,
hence exact) followed by `Math.round`, which ECMAScript defines on the
exact value of its argument as the nearest integer with ties toward
positive infinity — that is, the floor of the value plus one half. -/
def jsPercentage (score total : ℕ) : ℤ :=
  ⌊fl (fl ((score : ℚ) / (total : ℚ)) * 100) + 1 / 2⌋

/-- Exact round-half-up of `score / total * 100`, as the specification
states the percentage (no intermediate rounding). -/
def specPercentage (score total : ℕ) : ℤ :=
  ⌊(score : ℚ) / (total : ℚ) * 100 + 1 / 2⌋

/-- Per-question entry of `detailedResults` built by the submit handler
(lines 252-260 of `index.js`). -/
structure DetailedResult where
  questionNumber : ℕ
  question : Option Json
  word : Option Json
  correctAnswer : Option Json
  userAnswer : Json
  isCorrect : Bool
  options : Option Json
  deriving Repr

/-- Per-question entry of `wrongAnswers` built by the submit handler
(lines 241-248 of `index.js`). -/
structure WrongAnswer where
  questionNumber : ℕ
  question : Option Json
  word : Option Json
  correctAnswer : Option Json
  userAnswer : Json
  options : Option Json
  deriving Repr

/-- Result record appended to `quizResults` (lines 265-273 of `index.js`). -/
structure ResultRecord where
  name : Json
  surname : Json
  score : ℕ
  total : ℕ
  percentage : ℤ
  date : String
  detailedResults : List DetailedResult
  deriving Repr

/-- The process-wide mutable state of `index.js`: `currentQuiz` (lines
68-69), initially `null`, and the list of accumulated results. -/
structure ServerState where
  currentQuiz : Option (List Json)
  quizResults : List ResultRecord
  deriving Repr

/-- Value of `v.length`: arrays and strings have a numeric length; plain
objects yield their `length` property if any; other values yield
`undefined`.  (The throwing `null.length` case cannot arise: `answers` has
already passed the truthiness guard when its length is read.) -/
def jsLenVal : Json → Option Json
  | .arr l => some (.num l.length)
  | .str s => some (.num s.length)
  | .obj kvs => lookupField kvs "length"
  | _ => none

/-- Value of `v[i]` for a natural-number index: array element,
single-character string, or numeric-keyed object property. -/
def jsIndex : Json → ℕ → Option Json
  | .arr l, i => l.get? i
  | .str s, i => (s.data.get? i).map (fun c => .str (String.mk [c]))
  | .obj kvs, i => lookupField kvs (toString i)
  | _, _ => none

/-- Displayed form of `answers[i] || 'No answer'` from the submit handler:
the submitted answer when truthy, else the sentinel string. -/
def shownAnswer (answers : Json) (i : ℕ) : Json :=
  match jsIndex answers i with
  | some v => if jsTruthy v then v else Json.str "No answer"
  | none => Json.str "No answer"

/-- The `detailedResults` entry built for question `q` at index `i`
(lines 252-260 of `index.js`). -/
def detEntry (answers : Json) (i : ℕ) (q : Json) : DetailedResult :=
  { questionNumber := i + 1, question := getField q "question",
    word := getField q "word", correctAnswer := getField q "correct",
    userAnswer := shownAnswer answers i,
    isCorrect := jsStrictEqOpt (jsIndex answers i) (getField q "correct"),
    options := getField q "options" }

/-- The `wrongAnswers` entry built for question `q` at index `i`
(lines 241-248 of `index.js`). -/
def wrongEntry (answers : Json) (i : ℕ) (q : Json) : WrongAnswer :=
  { questionNumber := i + 1, question := getField q "question",
    word := getField q "word", correctAnswer := getField q "correct",
    userAnswer := shownAnswer answers i,
    options := getField q "options" }

/-- The `currentQuiz.forEach` loop of the submit handler (lines 234-261 of
`index.js`), processing the questions from index `i` on: accumulates the
score, the wrong-answer list and the detailed result list, in iteration
order.  `answers[i] || 'No answer'` substitutes the sentinel for a falsy
submitted answer.  (Reading `q.correct` on a non-object question is
modelled as `undefined`; a `null` question would throw in JS, and the
theorems about this loop therefore assume non-null questions, which is
what the validator guarantees for every reachable quiz.) -/
def processQuestions (answers : Json) (i : ℕ) : List Json → ℕ × List WrongAnswer × List DetailedResult
  | [] => (0, [], [])
  | q :: rest =>
    let isCorrect := jsStrictEqOpt (jsIndex answers i) (getField q "correct")
    let (s, ws, ds) := processQuestions answers (i + 1) rest
    ((if isCorrect then 1 else 0) + s,
     (if isCorrect then ws else wrongEntry answers i q :: ws),
     detEntry answers i q :: ds)

/-- Body fields of a `POST /api/quiz/submit` request; `none` models an
absent field. -/
structure SubmitBody where
  name : Option Json
  surname : Option Json
  answers : Option Json

/-- Response of the submit handler, with `status` the HTTP status code and
the JSON payload fields flattened. -/
structure SubmitResponse where
  status : ℕ
  error : Option String
  score : Option ℕ
  total : Option ℕ
  percentage : Option ℤ
  wrongAnswers : Option (List WrongAnswer)
  message : Option String
  deriving Repr

/-- The 400 rejection responses of the submit handler. -/
def submitReject (msg : String) : SubmitResponse :=
  { status := 400, error := some msg, score := none, total := none,
    percentage := none, wrongAnswers := none, message := none }

/-- Model of the `POST /api/quiz/submit` handler, lines 205-288 of
`index.js`: reject when `name`, `surname` or `answers` is absent or falsy,
when no quiz is loaded, or when `answers.length` is not strictly equal to
the quiz length; otherwise score the submission, append a result record
and answer 200.  `now` abstracts `new Date().toISOString()`. -/
def postQuizSubmit (st : ServerState) (body : SubmitBody) (now : String) :
    SubmitResponse × ServerState :=
  match body.name, body.surname, body.answers with
  | some nm, some sn, some ans =>
    if ¬ (jsTruthy nm ∧ jsTruthy sn ∧ jsTruthy ans) then
      (submitReject "Name, surname, and answers required", st)
    else
      match st.currentQuiz with
      | none => (submitReject "No quiz available", st)
      | some quiz =>
        if ¬ jsStrictEqOpt (jsLenVal ans) (some (.num quiz.length)) then
          (submitReject "Answer count does not match question count", st)
        else
          let (score, wrongs, dets) := processQuestions ans 0 quiz
          let pct := jsPercentage score quiz.length
          let record : ResultRecord :=
            { name := nm, surname := sn, score := score, total := quiz.length,
              percentage := pct, date := now, detailedResults := dets }
          ({ status := 200, error := none, score := some score,
             total := some quiz.length, percentage := some pct,
             wrongAnswers := some wrongs, message := some "Quiz submitted successfully" },
           { st with quizResults := st.quizResults ++ [record] })
  | _, _, _ => (submitReject "Name, surname, and answers required", st)

/-- Response of the quiz-generation handler. -/
structure QuizGenResponse where
  status : ℕ
  error : Option String
  questionsCount : Option ℕ
  deriving Repr

/-- Model of the `POST /api/admin/quiz` handler, lines 158-190 of
`index.js` (after the admin check): 400 when `text` is absent or falsy;
otherwise run the generation pipeline; on success store the new quiz,
clear the results and answer 200 with the question count; on failure
answer 500 with the thrown message and leave the state untouched. -/
def postAdminQuiz (st : ServerState) (text : Option Json) (apiKeySet : Bool)
    (call : Except AxiosError (Option String)) : QuizGenResponse × ServerState :=
  match text with
  | some t =>
    if ¬ jsTruthy t then
      ({ status := 400, error := some "Text is required", questionsCount := none }, st)
    else
      match generateQuizFromText t apiKeySet call with
      | .ok quiz =>
        ({ status := 200, error := none, questionsCount := some quiz.length },
         { currentQuiz := some quiz, quizResults := [] })
      | .error m =>
        ({ status := 500, error := some m, questionsCount := none }, st)
  | none => ({ status := 400, error := some "Text is required", questionsCount := none }, st)

/-- Claim-side description of a question the validator has accepted: each
of the four fields is present and truthy (for a string field, truthiness
is exactly non-emptiness), `options` is an array of exactly 4 entries, and
`correct` is `===`-equal to one of them. -/
def acceptedQuestion (q : Json) : Prop :=
  (∃ w, getField q "word" = some w ∧ jsTruthy w = true) ∧
  (∃ u, getField q "question" = some u ∧ jsTruthy u = true) ∧
  (∃ c, getField q "correct" = some c ∧ jsTruthy c = true ∧
    ∃ l, getField q "options" = some (Json.arr l) ∧ l.length = 4 ∧ jsIncludes l c = true)

/-- Decidable per-question validity, mirroring the three checks of
`checkQuestion` without the index (used to speak about which question of a
list is the offending one). -/
def questionOk (q : Json) : Bool :=
  jsTruthyOpt (getField q "word") && jsTruthyOpt (getField q "question") &&
  jsTruthyOpt (getField q "options") && jsTruthyOpt (getField q "correct") &&
  (match getField q "options" with | some (.arr l) => l.length == 4 | _ => false) &&
  (match getField q "options", getField q "correct" with
   | some (.arr l), some c => jsIncludes l c
   | _, _ => false)

/-- Whether `m` is one of the validator's three per-question error
messages for the 0-based question index `i` (each names the 1-based
index `i + 1`). -/
def indexedErrorMsg (i : ℕ) (m : String) : Prop :=
  m = "Question " ++ toString (i + 1) ++ " is missing required fields" ∨
  m = "Question " ++ toString (i + 1) ++ " must have exactly 4 options" ∨
  ∃ c : Json, m = "Question " ++ toString (i + 1) ++ " correct answer \"" ++
    jsDisplay c ++ "\" not found in options"

/-- Specification-side score: the number of indices `i` at which
`answers[i]` is strictly equal to `quiz[i].correct`. -/
def countMatches (ans quiz : List Json) : ℕ :=
  (List.range quiz.length).countP
    (fun i => jsStrictEqOpt (ans.get? i) (getField (quiz.getD i Json.null) "correct"))

/-- A sample validated question, used as concrete input by witnesses. -/
def exQuestion : Json :=
  Json.obj [("word", Json.str "ex"), ("question", Json.str "Q"),
    ("options", Json.arr [Json.str "a", Json.str "b", Json.str "c", Json.str "d"]),
    ("correct", Json.str "b")]

/-- A sample stored result record, used as concrete prior state by
witnesses. -/
def exRecord : ResultRecord :=
  { name := Json.str "A", surname := Json.str "B", score := 0, total := 1,
    percentage := 0, date := "d", detailedResults := [] }

/-- Claim-side (amended) rejection condition of the submit handler: a
required body field absent or falsy, no active quiz, or an answers array
whose length differs from the quiz length. -/
def submitRejectCond (st : ServerState) (body : SubmitBody) : Prop :=
  jsTruthyOpt body.name = false ∨ jsTruthyOpt body.surname = false ∨
  jsTruthyOpt body.answers = false ∨
  st.currentQuiz = none ∨
  (∃ quiz l, st.currentQuiz = some quiz ∧ body.answers = some (Json.arr l) ∧
    l.length ≠ quiz.length)

/-- A question whose options are four copies of the same string (and whose
`correct` value is that string). -/
def c4Question : Json :=
  Json.obj [("word", Json.str "ex"), ("question", Json.str "Q"),
    ("options", Json.arr [Json.str "a", Json.str "a", Json.str "a", Json.str "a"]),
    ("correct", Json.str "a")]

/-- A candidate quiz object whose single question has duplicated options. -/
def c4Obj : Json :=
  Json.obj [("quiz", Json.arr [c4Question])]

/-- A candidate quiz object whose single question is `null`. -/
def c3Obj : Json :=
  Json.obj [("quiz", Json.arr [Json.null])]

/-- A server state holding a 40-question quiz (each question's correct
answer is `"b"`). -/
def c5State : ServerState :=
  { currentQuiz := some (List.replicate 40 exQuestion), quizResults := [] }

/-- A submission answering the first 23 of the 40 questions correctly. -/
def c5Body : SubmitBody :=
  { name := some (Json.str "N"), surname := some (Json.str "S"),
    answers := some (Json.arr
      (List.replicate 23 (Json.str "b") ++ List.replicate 17 (Json.str "c"))) }

/-- A server state holding a one-question quiz. -/
def c6State : ServerState :=
  { currentQuiz := some [exQuestion], quizResults := [] }

/-- A submission whose `name` field is present but the empty string, with
all other conditions for acceptance satisfied. -/
def c6Body : SubmitBody :=
  { name := some (Json.str ""), surname := some (Json.str "S"),
    answers := some (Json.arr [Json.str "b"]) }

/-- C1.  The spec says that when a direct parse of the raw model output
fails and the output carries a fenced code block labeled as JSON with a
valid JSON interior, extraction succeeds with the object parsed from the
block's interior.  The code instead parses `jsonMatch[0]` — the whole
regex match including the backtick fences, never valid JSON, although the
regex's capture group was written to grab the interior — so extraction
always fails on such input.  At the concrete raw output consisting of a
fenced block around `\x7b"quiz": []\x7d`: the direct parse fails, the
fenced regex matches the whole block, the interior alone is valid JSON,
and extraction nevertheless reports the failed-to-parse error. -/
theorem c1_fenced_block_parse_bug :
    jsonParse "```json\n\x7b\"quiz\": []\x7d\n```" = none ∧
    fencedJsonMatch "```json\n\x7b\"quiz\": []\x7d\n```" =
      some "```json\n\x7b\"quiz\": []\x7d\n```" ∧
    jsonParse "\x7b\"quiz\": []\x7d" = some (Json.obj [("quiz", Json.arr [])]) ∧
    extractQuizObj "```json\n\x7b\"quiz\": []\x7d\n```" =
      .error "Failed to parse extracted JSON: " :=
  ⟨rfl, rfl, rfl, rfl⟩

/-- C8.  On the raw output `noise \x7b"quiz":[]\x7d trailing`, the direct
parse fails, the fenced-block search finds nothing, the brace-span match
yields exactly `\x7b"quiz":[]\x7d`, extraction succeeds with the object
whose `quiz` field is the empty array, and the validator rejects that
object as empty. -/
theorem c8_extraction_stage_ordering :
    jsonParse "noise \x7b\"quiz\":[]\x7d trailing" = none ∧
    fencedJsonMatch "noise \x7b\"quiz\":[]\x7d trailing" = none ∧
    braceMatch "noise \x7b\"quiz\":[]\x7d trailing" = some "\x7b\"quiz\":[]\x7d" ∧
    extractQuizObj "noise \x7b\"quiz\":[]\x7d trailing" =
      .ok (Json.obj [("quiz", Json.arr [])]) ∧
    validateQuiz (Json.obj [("quiz", Json.arr [])]) = .error "Quiz array is empty" :=
  ⟨rfl, rfl, rfl, rfl, rfl⟩

/-- C2.  Whenever the generation pipeline fails — input validation, the
model call, extraction or quiz validation, i.e. any `.error` outcome of
`generateQuizFromText` — the admin handler answers 500 carrying exactly
the pipeline's message and leaves the server state (current quiz and
results list) unchanged.  The truthiness hypothesis on `text` states that
the request reaches the pipeline at all (a falsy `text` is answered 400
before the pipeline runs). -/
theorem c2_pipeline_failure_aborts_with_500_and_preserves_state
    (st : ServerState) (t : Json) (k : Bool)
    (call : Except AxiosError (Option String)) (m : String)
    (ht : jsTruthy t = true)
    (h : generateQuizFromText t k call = .error m) :
    postAdminQuiz st (some t) k call =
      ({ status := 500, error := some m, questionsCount := none }, st) := by
  simp [postAdminQuiz, ht, h]

/-- Witness for C2: a concrete too-short text makes the pipeline fail and
the handler preserve a non-trivial prior state. -/
theorem c2_witness :
    postAdminQuiz { currentQuiz := some [exQuestion], quizResults := [exRecord] }
        (some (Json.str "too short")) true (.ok none) =
      ({ status := 500,
         error := some "Input text must be a meaningful string (at least 20 characters)",
         questionsCount := none },
       { currentQuiz := some [exQuestion], quizResults := [exRecord] }) :=
  c2_pipeline_failure_aborts_with_500_and_preserves_state _ _ _ _ _ rfl rfl

/-- C7.  Every successful generation replaces the current quiz with the
newly validated one and resets the results list to the empty list,
whatever the previous state was. -/
theorem c7_success_replaces_quiz_and_clears_results
    (st : ServerState) (t : Json) (k : Bool)
    (call : Except AxiosError (Option String)) (quiz : List Json)
    (ht : jsTruthy t = true)
    (h : generateQuizFromText t k call = .ok quiz) :
    postAdminQuiz st (some t) k call =
      ({ status := 200, error := none, questionsCount := some quiz.length },
       { currentQuiz := some quiz, quizResults := [] }) := by
  simp [postAdminQuiz, ht, h]

/-- Witness for C7: a concrete successful generation over a prior state
with a stored quiz and accumulated results. -/
theorem c7_witness :
    postAdminQuiz { currentQuiz := some [exQuestion, exQuestion], quizResults := [exRecord] }
        (some (Json.str "a sufficiently long input text")) true
        (.ok (some "\x7b\"quiz\": [\x7b\"word\":\"ex\",\"question\":\"Q\",\"options\":[\"a\",\"b\",\"c\",\"d\"],\"correct\":\"b\"\x7d]\x7d")) =
      ({ status := 200, error := none, questionsCount := some 1 },
       { currentQuiz := some [exQuestion], quizResults := [] }) :=
  c7_success_replaces_quiz_and_clears_results _ _ _ _ [exQuestion] rfl rfl

/-- C10.  A submission whose `name` (or `surname`) field is present but
equal to the empty string is rejected with 400 and the missing-fields
message, no result record is appended, and the outcome is identical to
the one for the same body with that field absent. -/
theorem c10_empty_name_rejected_as_absent
    (st : ServerState) (body : SubmitBody) (now : String) :
    (body.name = some (Json.str "") →
      postQuizSubmit st body now = (submitReject "Name, surname, and answers required", st) ∧
      postQuizSubmit st { body with name := none } now = postQuizSubmit st body now) ∧
    (body.surname = some (Json.str "") →
      postQuizSubmit st body now = (submitReject "Name, surname, and answers required", st) ∧
      postQuizSubmit st { body with surname := none } now = postQuizSubmit st body now) := by
  obtain ⟨nm, sn, ans⟩ := body
  constructor
  · rintro rfl
    cases sn <;> cases ans <;> simp [postQuizSubmit, jsTruthy]
  · rintro rfl
    cases nm <;> cases ans <;> simp [postQuizSubmit, jsTruthy]

/-- Witness for C10: concrete empty-string name against an active quiz
with otherwise valid fields. -/
theorem c10_witness :
    postQuizSubmit { currentQuiz := some [exQuestion], quizResults := [] }
        { name := some (Json.str ""), surname := some (Json.str "S"),
          answers := some (Json.arr [Json.str "b"]) } "d" =
      (submitReject "Name, surname, and answers required",
       { currentQuiz := some [exQuestion], quizResults := [] }) :=
  ((c10_empty_name_rejected_as_absent _ _ _).1 rfl).1

/-- C3, counterexample.  A quiz whose single question is `null` violates
the field-presence rule, and validation does fail — but with the
field-access TypeError, whose message does not mention the offending
question's index (it contains no "1" at all), contradicting the claim
that any violation yields an error identifying the index. -/
theorem c3_counterexample :
    validateQuiz c3Obj = .error "Cannot read properties of null (reading 'word')" ∧
    strContains "Cannot read properties of null (reading 'word')" "1" = false ∧
    strContains "Cannot read properties of null (reading 'word')" "Question" = false :=
  ⟨rfl, rfl, rfl⟩

/-- C4, counterexample.  The validator accepts a question whose `options`
array holds the same string four times: the options of an accepted
question need not be distinct. -/
theorem c4_counterexample :
    validateQuiz c4Obj = .ok [c4Question] ∧
    getField c4Question "options" =
      some (Json.arr [Json.str "a", Json.str "a", Json.str "a", Json.str "a"]) ∧
    ¬ [Json.str "a", Json.str "a", Json.str "a", Json.str "a"].Nodup :=
  ⟨rfl, rfl, fun h => (List.nodup_cons.mp h).1 (List.mem_cons_self _ _)⟩

set_option maxRecDepth 10000 in
unseal Rat.mul Rat.inv Rat.add Rat.sub in
/-- C5, counterexample.  Submitting 23 correct answers out of 40 is
accepted and returns percentage 57, while exact round-half-up of
`23 / 40 * 100 = 57.5` is 58: the handler computes the percentage on
binary64 doubles, where `(23/40)*100` is strictly below `57.5`. -/
theorem c5_counterexample :
    (postQuizSubmit c5State c5Body "d").1.status = 200 ∧
    (postQuizSubmit c5State c5Body "d").1.score = some 23 ∧
    (postQuizSubmit c5State c5Body "d").1.total = some 40 ∧
    (postQuizSubmit c5State c5Body "d").1.percentage = some 57 ∧
    specPercentage 23 40 = 58 := by
  decide

/-- C6, counterexample.  A submission whose `name` is present (the empty
string) with an active quiz and a correctly sized answers array is
rejected with 400 and appends nothing, although none of the claim's
rejection conditions (absent field, no quiz, length mismatch) holds. -/
theorem c6_counterexample :
    (postQuizSubmit c6State c6Body "d").1.status = 400 ∧
    (postQuizSubmit c6State c6Body "d").2 = c6State ∧
    c6Body.name ≠ none ∧ c6Body.surname ≠ none ∧ c6Body.answers ≠ none ∧
    c6State.currentQuiz ≠ none ∧
    (∃ quiz ans, c6State.currentQuiz = some quiz ∧
      c6Body.answers = some (Json.arr ans) ∧ ans.length = quiz.length) := by
  refine ⟨rfl, rfl, ?_, ?_, ?_, ?_, ⟨[exQuestion], [Json.str "b"], rfl, rfl, rfl⟩⟩ <;> simp [c6Body, c6State]

/-- Truthiness of an optional value unpacked into an existential. -/
theorem jsTruthyOpt_iff (o : Option Json) :
    jsTruthyOpt o = true ↔ ∃ v, o = some v ∧ jsTruthy v = true := by
  cases o <;> simp [jsTruthyOpt]

/-- Property access on a non-null value never throws. -/
theorem getProp_ok (q : Json) (k : String) (hq : q ≠ Json.null) :
    getProp q k = .ok (getField q k) := by
  cases q <;> simp_all [getProp, getField]

/-- A question accepted by `checkQuestion` is an object and satisfies the
claim-side description of an accepted question. -/
theorem checkQuestion_ok_elim (i : ℕ) (q : Json) (h : checkQuestion i q = .ok ()) :
    acceptedQuestion q ∧ q.isObj = true := by
  rcases q with _ | b | nq | s | l | kvs
  case null => simp [checkQuestion, getProp] at h
  case bool => simp [checkQuestion, getProp, getField, jsTruthyOpt] at h
  case num => simp [checkQuestion, getProp, getField, jsTruthyOpt] at h
  case str => simp [checkQuestion, getProp, getField, jsTruthyOpt] at h
  case arr => simp [checkQuestion, getProp, getField, jsTruthyOpt] at h
  case obj =>
  refine ⟨?_, rfl⟩
  rcases hW : lookupField kvs "word" with _ | w
  · simp [checkQuestion, getProp, getField, hW, jsTruthyOpt] at h
  rcases hQ : lookupField kvs "question" with _ | u
  · simp [checkQuestion, getProp, getField, hW, hQ, jsTruthyOpt] at h
  rcases hO : lookupField kvs "options" with _ | o
  · simp [checkQuestion, getProp, getField, hW, hQ, hO, jsTruthyOpt] at h
  rcases hC : lookupField kvs "correct" with _ | c
  · simp [checkQuestion, getProp, getField, hW, hQ, hO, hC, jsTruthyOpt] at h
  cases htw : jsTruthy w
  · simp [checkQuestion, getProp, getField, hW, hQ, hO, hC, jsTruthyOpt, htw] at h
  cases htq : jsTruthy u
  · simp [checkQuestion, getProp, getField, hW, hQ, hO, hC, jsTruthyOpt, htw, htq] at h
  cases hto : jsTruthy o
  · simp [checkQuestion, getProp, getField, hW, hQ, hO, hC, jsTruthyOpt, htw, htq, hto] at h
  cases htc : jsTruthy c
  · simp [checkQuestion, getProp, getField, hW, hQ, hO, hC, jsTruthyOpt, htw, htq, hto, htc] at h
  rcases o with _ | b2 | n2 | s2 | lo | kv2
  case null => simp [jsTruthy] at hto
  case bool => simp [checkQuestion, getProp, getField, hW, hQ, hO, hC, jsTruthyOpt, htw, htq, hto, htc] at h
  case num => simp [checkQuestion, getProp, getField, hW, hQ, hO, hC, jsTruthyOpt, htw, htq, hto, htc] at h
  case str => simp [checkQuestion, getProp, getField, hW, hQ, hO, hC, jsTruthyOpt, htw, htq, hto, htc] at h
  case obj => simp [checkQuestion, getProp, getField, hW, hQ, hO, hC, jsTruthyOpt, htw, htq, hto, htc] at h
  case arr =>
  cases hlen : lo.length == 4
  · simp [checkQuestion, getProp, getField, hW, hQ, hO, hC, jsTruthyOpt, htw, htq, hto, htc, hlen] at h
  cases hinc : jsIncludes lo c
  · simp [checkQuestion, getProp, getField, hW, hQ, hO, hC, jsTruthyOpt, htw, htq, hto, htc, hlen, hinc] at h
  exact ⟨⟨w, hW, htw⟩, ⟨u, hQ, htq⟩, ⟨c, hC, htc, lo, hO, by simpa using hlen, hinc⟩⟩

/-- A question passing the decidable per-question predicate passes
`checkQuestion` at every index. -/
theorem checkQuestion_ok_of_questionOk (i : ℕ) (q : Json) (hok : questionOk q = true) :
    checkQuestion i q = .ok () := by
  rcases q with _ | b | nq | s | l | kvs
  case null => simp [questionOk, getField, jsTruthyOpt] at hok
  case bool => simp [questionOk, getField, jsTruthyOpt] at hok
  case num => simp [questionOk, getField, jsTruthyOpt] at hok
  case str => simp [questionOk, getField, jsTruthyOpt] at hok
  case arr => simp [questionOk, getField, jsTruthyOpt] at hok
  case obj =>
  simp only [questionOk, getField, Bool.and_eq_true] at hok
  obtain ⟨⟨⟨⟨⟨h1, h2⟩, h3⟩, h4⟩, h5⟩, h6⟩ := hok
  rcases hO : lookupField kvs "options" with _ | o
  · rw [hO] at h3; simp [jsTruthyOpt] at h3
  rcases hC : lookupField kvs "correct" with _ | c
  · rw [hC] at h4; simp [jsTruthyOpt] at h4
  rw [hO] at h5
  rcases o with _ | b2 | n2 | s2 | lo | kv2 <;> simp at h5
  rw [hO, hC] at h6
  simp only at h6
  have htc : jsTruthy c = true := by rw [hC] at h4; simpa [jsTruthyOpt] using h4
  obtain ⟨w, hW, htw⟩ := (jsTruthyOpt_iff _).mp h1
  obtain ⟨u, hQ, htq⟩ := (jsTruthyOpt_iff _).mp h2
  have hta : jsTruthy (Json.arr lo) = true := rfl
  simp [checkQuestion, getProp, getField, hW, hQ, hO, hC, jsTruthyOpt, htw, htq, htc, hta, h5, h6]

/-- A non-null question failing the per-question predicate makes
`checkQuestion` fail with one of the three messages naming index `i+1`. -/
theorem checkQuestion_error_of (i : ℕ) (q : Json) (hq : q ≠ Json.null)
    (hbad : questionOk q = false) :
    ∃ m, checkQuestion i q = .error m ∧ indexedErrorMsg i m := by
  rcases q with _ | b | nq | s | l | kvs
  case null => exact absurd rfl hq
  case bool =>
    exact ⟨_, by simp [checkQuestion, getProp, getField, jsTruthyOpt], Or.inl rfl⟩
  case num =>
    exact ⟨_, by simp [checkQuestion, getProp, getField, jsTruthyOpt], Or.inl rfl⟩
  case str =>
    exact ⟨_, by simp [checkQuestion, getProp, getField, jsTruthyOpt], Or.inl rfl⟩
  case arr =>
    exact ⟨_, by simp [checkQuestion, getProp, getField, jsTruthyOpt], Or.inl rfl⟩
  case obj =>
  rcases hW : lookupField kvs "word" with _ | w
  · exact ⟨_, by simp [checkQuestion, getProp, getField, hW, jsTruthyOpt], Or.inl rfl⟩
  rcases hQ : lookupField kvs "question" with _ | u
  · exact ⟨_, by simp [checkQuestion, getProp, getField, hW, hQ, jsTruthyOpt], Or.inl rfl⟩
  rcases hO : lookupField kvs "options" with _ | o
  · exact ⟨_, by simp [checkQuestion, getProp, getField, hW, hQ, hO, jsTruthyOpt], Or.inl rfl⟩
  rcases hC : lookupField kvs "correct" with _ | c
  · exact ⟨_, by simp [checkQuestion, getProp, getField, hW, hQ, hO, hC, jsTruthyOpt], Or.inl rfl⟩
  cases htw : jsTruthy w
  · exact ⟨_, by simp [checkQuestion, getProp, getField, hW, hQ, hO, hC, jsTruthyOpt, htw], Or.inl rfl⟩
  cases htq : jsTruthy u
  · exact ⟨_, by simp [checkQuestion, getProp, getField, hW, hQ, hO, hC, jsTruthyOpt, htw, htq], Or.inl rfl⟩
  cases hto : jsTruthy o
  · exact ⟨_, by simp [checkQuestion, getProp, getField, hW, hQ, hO, hC, jsTruthyOpt, htw, htq, hto], Or.inl rfl⟩
  cases htc : jsTruthy c
  · exact ⟨_, by simp [checkQuestion, getProp, getField, hW, hQ, hO, hC, jsTruthyOpt, htw, htq, hto, htc], Or.inl rfl⟩
  rcases o with _ | b2 | n2 | s2 | lo | kv2
  case null => simp [jsTruthy] at hto
  case bool =>
    exact ⟨_, by simp [checkQuestion, getProp, getField, hW, hQ, hO, hC, jsTruthyOpt, htw, htq, hto, htc], Or.inr (Or.inl rfl)⟩
  case num =>
    exact ⟨_, by simp [checkQuestion, getProp, getField, hW, hQ, hO, hC, jsTruthyOpt, htw, htq, hto, htc], Or.inr (Or.inl rfl)⟩
  case str =>
    exact ⟨_, by simp [checkQuestion, getProp, getField, hW, hQ, hO, hC, jsTruthyOpt, htw, htq, hto, htc], Or.inr (Or.inl rfl)⟩
  case obj =>
    exact ⟨_, by simp [checkQuestion, getProp, getField, hW, hQ, hO, hC, jsTruthyOpt, htw, htq, hto, htc], Or.inr (Or.inl rfl)⟩
  case arr =>
  cases hlen : lo.length == 4
  · exact ⟨_, by simp [checkQuestion, getProp, getField, hW, hQ, hO, hC, jsTruthyOpt, htw, htq, hto, htc, hlen], Or.inr (Or.inl rfl)⟩
  cases hinc : jsIncludes lo c
  · exact ⟨_, by simp [checkQuestion, getProp, getField, hW, hQ, hO, hC, jsTruthyOpt, htw, htq, hto, htc, hlen, hinc], Or.inr (Or.inr ⟨c, rfl⟩)⟩
  · exfalso
    have hq2 : questionOk (Json.obj kvs) = true := by
      simp [questionOk, getField, hW, hQ, hO, hC, jsTruthyOpt, htw, htq, hto, htc, hlen, hinc]
    rw [hq2] at hbad
    simp at hbad

/-- Every question of a list accepted by the validation loop satisfies the
claim-side description and is an object. -/
theorem checkAll_ok_elim (qs : List Json) :
    ∀ i, checkAll i qs = .ok () → ∀ q ∈ qs, acceptedQuestion q ∧ q.isObj = true := by
  induction qs with
  | nil => intro i _ q hq; exact absurd hq (List.not_mem_nil q)
  | cons q rest ih =>
    intro i h q' hq'
    rcases hc : checkQuestion i q with m | u
    · rw [checkAll, hc] at h
      exact absurd h (by simp)
    · rw [checkAll, hc] at h
      rcases List.mem_cons.mp hq' with rfl | hmem
      · cases u
        exact checkQuestion_ok_elim i q' hc
      · exact ih (i + 1) h q' hmem

/-- When every question of the list is non-null and some question violates
the rules, the validation loop fails with a message naming the 1-based
position of an offending question. -/
theorem checkAll_error_of (qs : List Json) :
    ∀ i, (∀ q ∈ qs, q ≠ Json.null) → (∃ q ∈ qs, questionOk q = false) →
    ∃ k m, k < qs.length ∧ questionOk (qs.getD k Json.null) = false ∧
      checkAll i qs = .error m ∧ indexedErrorMsg (i + k) m := by
  induction qs with
  | nil => intro i _ hbad; simp at hbad
  | cons q rest ih =>
    intro i hnn hbad
    cases hq : questionOk q
    · obtain ⟨m, hm, him⟩ := checkQuestion_error_of i q (hnn q (List.mem_cons_self q rest)) hq
      exact ⟨0, m, by simp, by simpa using hq, by simp [checkAll, hm], by simpa using him⟩
    · have hco := checkQuestion_ok_of_questionOk i q hq
      have hrest : ∃ q' ∈ rest, questionOk q' = false := by
        rcases hbad with ⟨q', hq', hbad'⟩
        rcases List.mem_cons.mp hq' with rfl | hmem
        · rw [hq] at hbad'; exact absurd hbad' (by simp)
        · exact ⟨q', hmem, hbad'⟩
      obtain ⟨k, m, hk, hkbad, herr, him⟩ :=
        ih (i + 1) (fun q' h' => hnn q' (List.mem_cons_of_mem q h')) hrest
      refine ⟨k + 1, m, by simpa using hk, by simpa using hkbad, ?_, ?_⟩
      · simp [checkAll, hco, herr]
      · have heq : i + (k + 1) = (i + 1) + k := by omega
        rw [heq]
        exact him

/-- Soundness of the validator: an accepted quiz is a non-empty list of
object questions each satisfying the claim-side description. -/
theorem validateQuiz_sound (j : Json) (qs : List Json) (h : validateQuiz j = .ok qs) :
    qs ≠ [] ∧ ∀ q ∈ qs, acceptedQuestion q ∧ q.isObj = true := by
  unfold validateQuiz at h
  rcases hgp : getProp j "quiz" with m | qf <;> simp only [hgp] at h
  · exact absurd h (by simp)
  rcases qf with _ | v
  · exact absurd h (by simp)
  rcases v with _ | b | nq | s | l | kvs
  case null => exact absurd h (by simp)
  case bool => exact absurd h (by simp)
  case num => exact absurd h (by simp)
  case str => exact absurd h (by simp)
  case obj => exact absurd h (by simp)
  case arr =>
  simp only at h
  by_cases hlen : l.length = 0
  · rw [if_pos hlen] at h
    exact absurd h (by simp)
  · rw [if_neg hlen] at h
    rcases hca : checkAll 0 l with m | u <;> rw [hca] at h
    · exact absurd h (by simp)
    · cases u
      have hl : l = qs := by simpa using h
      subst hl
      refine ⟨fun h0 => hlen (by simp [h0]), checkAll_ok_elim l 0 hca⟩

/-- C3, amended.  Soundness holds as claimed: every quiz accepted by the
validator is a non-empty sequence of questions with all four fields
present and truthy (hence non-empty when strings), exactly 4 options, and
`correct` among the options.  The error-indexing half holds for quizzes
whose questions are all non-null: a violation then fails validation with
one of the three messages naming the 1-based index of an offending
question (a null question instead fails with a TypeError naming no
index — see the counterexample). -/
theorem c3_validator_soundness_and_indexed_errors :
    (∀ j qs, validateQuiz j = .ok qs → qs ≠ [] ∧ ∀ q ∈ qs, acceptedQuestion q) ∧
    (∀ fields qs, lookupField fields "quiz" = some (Json.arr qs) →
      (∀ q ∈ qs, q ≠ Json.null) → (∃ q ∈ qs, questionOk q = false) →
      ∃ i m, i < qs.length ∧ questionOk (qs.getD i Json.null) = false ∧
        validateQuiz (Json.obj fields) = .error m ∧ indexedErrorMsg i m) := by
  constructor
  · intro j qs h
    exact ⟨(validateQuiz_sound j qs h).1,
      fun q hq => ((validateQuiz_sound j qs h).2 q hq).1⟩
  · intro fields qs hf hnn hbad
    obtain ⟨k, m, hk, hkbad, herr, him⟩ := checkAll_error_of qs 0 hnn hbad
    have hne : ¬ qs.length = 0 := by
      rcases hbad with ⟨q, hq, _⟩
      exact fun h0 => absurd hq (by simp [List.length_eq_zero.mp h0])
    refine ⟨k, m, hk, hkbad, ?_, by simpa using him⟩
    simp [validateQuiz, getProp, getField, hf, hne, herr]

/-- Witness for C3: the sample one-question quiz is accepted and satisfies
the description; a quiz whose single question is the empty object fails
with a message naming question 1. -/
theorem c3_witness :
    (([exQuestion] : List Json) ≠ [] ∧ ∀ q ∈ [exQuestion], acceptedQuestion q) ∧
    (∃ i m, i < [Json.obj []].length ∧
      questionOk ([Json.obj []].getD i Json.null) = false ∧
      validateQuiz (Json.obj [("quiz", Json.arr [Json.obj []])]) = .error m ∧
      indexedErrorMsg i m) :=
  ⟨c3_validator_soundness_and_indexed_errors.1
      (Json.obj [("quiz", Json.arr [exQuestion])]) [exQuestion] rfl,
   c3_validator_soundness_and_indexed_errors.2
      [("quiz", Json.arr [Json.obj []])] [Json.obj []] rfl
      (by simp) ⟨Json.obj [], by simp, rfl⟩⟩

/-- C4, amended.  Every accepted question's `options` field is an array of
exactly 4 entries; the validator checks nothing further about the entries
(in particular neither distinctness nor that they are strings — see the
counterexample). -/
theorem c4_options_length_four (j : Json) (qs : List Json)
    (h : validateQuiz j = .ok qs) :
    ∀ q ∈ qs, ∃ l, getField q "options" = some (Json.arr l) ∧ l.length = 4 := by
  intro q hq
  obtain ⟨_, _, c, _, _, l, hO, hlen, _⟩ := ((validateQuiz_sound j qs h).2 q hq).1
  exact ⟨l, hO, hlen⟩

/-- Witness for C4: the options array of the sample accepted quiz. -/
theorem c4_witness :
    ∃ l, getField exQuestion "options" = some (Json.arr l) ∧ l.length = 4 :=
  c4_options_length_four (Json.obj [("quiz", Json.arr [exQuestion])]) [exQuestion] rfl
    exQuestion (by simp)

/-- Unfolding of one iteration of the scoring loop (the tuple is a
structure, so the destructuring `let` reduces by eta). -/
theorem processQuestions_cons (a : Json) (i : ℕ) (q : Json) (rest : List Json) :
    processQuestions a i (q :: rest) =
      ((if jsStrictEqOpt (jsIndex a i) (getField q "correct") then 1 else 0) +
         (processQuestions a (i + 1) rest).1,
       (if jsStrictEqOpt (jsIndex a i) (getField q "correct")
         then (processQuestions a (i + 1) rest).2.1
         else wrongEntry a i q :: (processQuestions a (i + 1) rest).2.1),
       detEntry a i q :: (processQuestions a (i + 1) rest).2.2) := rfl

/-- The score accumulated by the loop is the number of positions whose
submitted answer is strictly equal to the question's `correct` value. -/
theorem processQuestions_score (ans : List Json) (quiz : List Json) :
    ∀ i, (processQuestions (Json.arr ans) i quiz).1 =
      (List.range quiz.length).countP
        (fun k => jsStrictEqOpt (ans.get? (i + k))
          (getField (quiz.getD k Json.null) "correct")) := by
  induction quiz with
  | nil => intro i; simp [processQuestions]
  | cons q rest ih =>
    intro i
    rw [processQuestions_cons]
    simp only [List.length_cons, List.range_succ_eq_map, List.countP_cons, List.countP_map,
      List.getD_cons_zero, Nat.add_zero, jsIndex]
    rw [ih (i + 1)]
    have hcp : ((List.range rest.length).countP
          (fun k => jsStrictEqOpt (ans.get? (i + 1 + k))
            (getField (rest.getD k Json.null) "correct"))) =
        ((List.range rest.length).countP
          ((fun k => jsStrictEqOpt (ans.get? (i + k))
            (getField ((q :: rest).getD k Json.null) "correct")) ∘ Nat.succ)) := by
      apply List.countP_congr
      intro k hk
      have h2 : i + (k + 1) = i + 1 + k := by omega
      simp [Function.comp_apply, Nat.succ_eq_add_one, List.getD_cons_succ, h2]
    rw [hcp]
    omega

/-- The score never exceeds the number of questions. -/
theorem processQuestions_score_le (a : Json) (quiz : List Json) :
    ∀ i, (processQuestions a i quiz).1 ≤ quiz.length := by
  induction quiz with
  | nil => intro i; simp [processQuestions]
  | cons q rest ih =>
    intro i
    rw [processQuestions_cons]
    simp only [List.length_cons]
    have := ih (i + 1)
    split <;> omega

/-- The detailed-results list has one entry per question, in order. -/
theorem processQuestions_det_get (a : Json) (quiz : List Json) :
    ∀ i k, k < quiz.length →
      (processQuestions a i quiz).2.2.get? k =
        some (detEntry a (i + k) (quiz.getD k Json.null)) := by
  induction quiz with
  | nil => intro i k hk; simp at hk
  | cons q rest ih =>
    intro i k hk
    rw [processQuestions_cons]
    cases k with
    | zero => simp
    | succ k2 =>
      have heq : i + (k2 + 1) = (i + 1) + k2 := by omega
      simp only [List.getD_cons_succ, heq]
      exact ih (i + 1) k2 (by simpa using hk)

/-- An incorrectly answered question contributes its wrong-answer entry to
the accumulated wrong-answer list. -/
theorem processQuestions_wrong_mem (a : Json) (quiz : List Json) :
    ∀ i k, k < quiz.length →
      jsStrictEqOpt (jsIndex a (i + k)) (getField (quiz.getD k Json.null) "correct") = false →
      wrongEntry a (i + k) (quiz.getD k Json.null) ∈ (processQuestions a i quiz).2.1 := by
  induction quiz with
  | nil => intro i k hk; simp at hk
  | cons q rest ih =>
    intro i k hk hw
    rw [processQuestions_cons]
    cases k with
    | zero =>
      simp only [List.getD_cons_zero, Nat.add_zero] at hw ⊢
      rw [hw]
      simp
    | succ k2 =>
      have heq : i + (k2 + 1) = (i + 1) + k2 := by omega
      rw [List.getD_cons_succ] at hw ⊢
      rw [heq] at hw ⊢
      have hmem := ih (i + 1) k2 (by simpa using hk) hw
      cases hc : jsStrictEqOpt (jsIndex a i) (getField q "correct")
      · simp only [hc, Bool.false_eq_true, if_false]
        exact List.mem_cons_of_mem _ hmem
      · simp only [hc, if_true]
        exact hmem

/-- A truthy value is never strictly equal to the empty string. -/
theorem strictEq_empty_of_truthy (c : Json) (hc : jsTruthy c = true) :
    jsStrictEq (Json.str "") c = false := by
  rcases c with _ | b | nq | s | l | kvs <;> simp_all [jsStrictEq, jsTruthy]
  intro h
  exact absurd h.symm (by simpa using hc)

/-- C6, amended.  A submission is rejected with 400 and appends nothing
exactly when a required field is absent or falsy (rather than only
absent — see the counterexample), no quiz is active, or the answers
array's length differs from the quiz length; otherwise it is accepted
with 200, a result record is appended, and the response carries score,
total, percentage and the wrong-answer list.  `hans` restricts `answers`
to absent-or-array, the claim's shape (the code would also accept any
value with a matching JS `length`). -/
theorem c6_rejection_boundary (st : ServerState) (body : SubmitBody) (now : String)
    (hans : body.answers = none ∨ ∃ l, body.answers = some (Json.arr l)) :
    (submitRejectCond st body →
      (postQuizSubmit st body now).1.status = 400 ∧ (postQuizSubmit st body now).2 = st) ∧
    (¬ submitRejectCond st body →
      (postQuizSubmit st body now).1.status = 200 ∧
      ∃ r, (postQuizSubmit st body now).2 =
          { currentQuiz := st.currentQuiz, quizResults := st.quizResults ++ [r] } ∧
        (postQuizSubmit st body now).1.score = some r.score ∧
        (postQuizSubmit st body now).1.total = some r.total ∧
        (postQuizSubmit st body now).1.percentage = some r.percentage ∧
        (postQuizSubmit st body now).1.wrongAnswers ≠ none ∧
        (postQuizSubmit st body now).1.message = some "Quiz submitted successfully") := by
  constructor
  · intro hrej
    rcases body with ⟨bn, bs, ba⟩
    rcases bn with _ | nv
    · simp [postQuizSubmit, submitReject]
    rcases bs with _ | sv
    · simp [postQuizSubmit, submitReject]
    rcases ba with _ | av
    · simp [postQuizSubmit, submitReject]
    by_cases htr : jsTruthy nv = true ∧ jsTruthy sv = true ∧ jsTruthy av = true
    · obtain ⟨h1, h2, h3⟩ := htr
      rcases hcq : st.currentQuiz with _ | quiz
      · simp [postQuizSubmit, submitReject, h1, h2, h3, hcq]
      by_cases hl : jsStrictEqOpt (jsLenVal av) (some (.num quiz.length)) = true
      · exfalso
        simp only [submitRejectCond] at hrej
        rcases hrej with h | h | h | h | h
        · simp [jsTruthyOpt, h1] at h
        · simp [jsTruthyOpt, h2] at h
        · simp [jsTruthyOpt, h3] at h
        · rw [hcq] at h; exact Option.noConfusion h
        · obtain ⟨quiz2, l2, hq2, hb2, hne⟩ := h
          rw [hcq] at hq2
          obtain rfl : quiz = quiz2 := by injection hq2
          obtain rfl : av = Json.arr l2 := by injection hb2
          simp [jsLenVal, jsStrictEqOpt, jsStrictEq] at hl
          exact hne (by exact_mod_cast hl)
      · simp [postQuizSubmit, submitReject, h1, h2, h3, hcq, hl]
    · have htr' : ¬ (jsTruthy nv = true ∧ (jsTruthy sv = true ∧ jsTruthy av = true)) := by
        intro hx; exact htr ⟨hx.1, hx.2.1, hx.2.2⟩
      simp [postQuizSubmit, submitReject, htr']
  · intro hrej
    simp only [submitRejectCond, not_or] at hrej
    obtain ⟨h1, h2, h3, h4, h5⟩ := hrej
    rcases body with ⟨bn, bs, ba⟩
    rcases bn with _ | nv
    · simp [jsTruthyOpt] at h1
    rcases bs with _ | sv
    · simp [jsTruthyOpt] at h2
    rcases ba with _ | av
    · simp [jsTruthyOpt] at h3
    simp only [jsTruthyOpt, Bool.not_eq_false] at h1 h2 h3
    rcases hcq : st.currentQuiz with _ | quiz
    · exact absurd hcq h4
    rcases hans with hba | ⟨l, hba⟩
    · exact Option.noConfusion hba
    obtain rfl : av = Json.arr l := by injection hba
    have hlen : l.length = quiz.length := by
      by_contra hne
      exact h5 ⟨quiz, l, hcq, rfl, hne⟩
    have hl : jsStrictEqOpt (jsLenVal (Json.arr l)) (some (.num quiz.length)) = true := by
      simp [jsLenVal, jsStrictEqOpt, jsStrictEq, hlen]
    have hnn2 : ¬ ¬ (jsTruthy nv = true ∧ jsTruthy sv = true ∧ jsTruthy (Json.arr l) = true) :=
      not_not_intro ⟨h1, h2, h3⟩
    have hl2 : ¬ ¬ jsStrictEqOpt (jsLenVal (Json.arr l)) (some (.num quiz.length)) = true :=
      not_not_intro hl
    simp only [postQuizSubmit, hcq, if_neg hnn2, if_neg hl2]
    exact ⟨trivial, _, rfl, rfl, rfl, rfl, by simp, trivial⟩

/-- Witness for C6: a concrete rejected submission (empty answers list
against a one-question quiz) and a concrete accepted one. -/
theorem c6_witness :
    ((postQuizSubmit c6State
        ⟨some (Json.str "N"), some (Json.str "S"), some (Json.arr [])⟩ "d").1.status = 400 ∧
     (postQuizSubmit c6State
        ⟨some (Json.str "N"), some (Json.str "S"), some (Json.arr [])⟩ "d").2 = c6State) ∧
    ((postQuizSubmit c6State
        ⟨some (Json.str "N"), some (Json.str "S"), some (Json.arr [Json.str "b"])⟩ "d").1.status = 200) := by
  constructor
  · exact (c6_rejection_boundary c6State _ "d" (Or.inr ⟨[], rfl⟩)).1
      (Or.inr (Or.inr (Or.inr (Or.inr ⟨[exQuestion], [], rfl, rfl, by simp [exQuestion]⟩))))
  · exact ((c6_rejection_boundary c6State _ "d" (Or.inr ⟨[Json.str "b"], rfl⟩)).2
      (by
        simp only [submitRejectCond, not_or]
        refine ⟨by simp [jsTruthyOpt, jsTruthy], by simp [jsTruthyOpt, jsTruthy],
          by simp [jsTruthyOpt, jsTruthy], by simp [c6State], ?_⟩
        rintro ⟨quiz2, l2, hq2, hb2, hne⟩
        obtain rfl : [exQuestion] = quiz2 := by
          have : some [exQuestion] = some quiz2 := hq2
          injection this
        obtain rfl : [Json.str "b"] = l2 := by
          injection hb2 with h
          injection h
        exact hne rfl)).1

/-- C9.  In an accepted submission against a validated quiz, an empty
submitted answer is recorded as the sentinel `No answer` both in the
detailed result entry and in the wrong-answer entry of its question, and
the question is scored incorrect: validation guarantees a truthy
`correct` value, and no truthy value is strictly equal to `""`. -/
theorem c9_empty_answer_sentinel
    (st : ServerState) (j : Json) (quiz : List Json) (nm sn : Json) (ans : List Json)
    (now : String) (i : ℕ)
    (hq : st.currentQuiz = some quiz)
    (hv : validateQuiz j = .ok quiz)
    (hnm : jsTruthy nm = true) (hsn : jsTruthy sn = true)
    (hlen : ans.length = quiz.length)
    (hi : i < quiz.length)
    (ha : ans.get? i = some (Json.str "")) :
    (postQuizSubmit st ⟨some nm, some sn, some (Json.arr ans)⟩ now).1.status = 200 ∧
    (∃ r, (postQuizSubmit st ⟨some nm, some sn, some (Json.arr ans)⟩ now).2.quizResults
        = st.quizResults ++ [r] ∧
      ∃ d, r.detailedResults.get? i = some d ∧
        d.userAnswer = Json.str "No answer" ∧ d.isCorrect = false) ∧
    (∃ ws, (postQuizSubmit st ⟨some nm, some sn, some (Json.arr ans)⟩ now).1.wrongAnswers
        = some ws ∧
      ∃ w ∈ ws, w.questionNumber = i + 1 ∧ w.userAnswer = Json.str "No answer") := by
  have hnn2 : ¬ ¬ (jsTruthy nm = true ∧ jsTruthy sn = true ∧ jsTruthy (Json.arr ans) = true) :=
    not_not_intro ⟨hnm, hsn, rfl⟩
  have hl : jsStrictEqOpt (jsLenVal (Json.arr ans)) (some (.num quiz.length)) = true := by
    simp [jsLenVal, jsStrictEqOpt, jsStrictEq, hlen]
  have hl2 : ¬ ¬ jsStrictEqOpt (jsLenVal (Json.arr ans)) (some (.num quiz.length)) = true :=
    not_not_intro hl
  have hqi : quiz.getD i Json.null ∈ quiz := by
    rw [List.getD_eq_getElem?_getD, List.getElem?_eq_getElem hi]
    exact List.getElem_mem hi
  obtain ⟨_, _, c, hC, htc, _⟩ := ((validateQuiz_sound j quiz hv).2 _ hqi).1
  have hw : jsStrictEqOpt (jsIndex (Json.arr ans) (0 + i))
      (getField (quiz.getD i Json.null) "correct") = false := by
    simp only [Nat.zero_add, jsIndex, ha, hC, jsStrictEqOpt]
    exact strictEq_empty_of_truthy c htc
  have ha2 : ans[i]? = some (Json.str "") := by simpa using ha
  simp only [postQuizSubmit, hq, if_neg hnn2, if_neg hl2]
  refine ⟨trivial, ⟨_, rfl, ?_⟩, ⟨_, rfl, ?_⟩⟩
  · refine ⟨detEntry (Json.arr ans) (0 + i) (quiz.getD i Json.null), ?_, ?_, ?_⟩
    · have hg := processQuestions_det_get (Json.arr ans) quiz 0 i hi
      simpa using hg
    · simp [detEntry, shownAnswer, jsIndex, Nat.zero_add, ha2, jsTruthy]
    · simpa [detEntry] using hw
  · refine ⟨wrongEntry (Json.arr ans) (0 + i) (quiz.getD i Json.null), ?_, ?_, ?_⟩
    · exact processQuestions_wrong_mem (Json.arr ans) quiz 0 i hi hw
    · simp [wrongEntry]
    · simp [wrongEntry, shownAnswer, jsIndex, Nat.zero_add, ha2, jsTruthy]

/-- Witness for C9: a two-question quiz with an empty second answer. -/
theorem c9_witness :
    (postQuizSubmit { currentQuiz := some [exQuestion, exQuestion], quizResults := [] }
        ⟨some (Json.str "A"), some (Json.str "B"),
          some (Json.arr [Json.str "b", Json.str ""])⟩ "d").1.status = 200 ∧
    (∃ r, (postQuizSubmit { currentQuiz := some [exQuestion, exQuestion], quizResults := [] }
        ⟨some (Json.str "A"), some (Json.str "B"),
          some (Json.arr [Json.str "b", Json.str ""])⟩ "d").2.quizResults = [] ++ [r] ∧
      ∃ d, r.detailedResults.get? 1 = some d ∧
        d.userAnswer = Json.str "No answer" ∧ d.isCorrect = false) ∧
    (∃ ws, (postQuizSubmit { currentQuiz := some [exQuestion, exQuestion], quizResults := [] }
        ⟨some (Json.str "A"), some (Json.str "B"),
          some (Json.arr [Json.str "b", Json.str ""])⟩ "d").1.wrongAnswers = some ws ∧
      ∃ w ∈ ws, w.questionNumber = 1 + 1 ∧ w.userAnswer = Json.str "No answer") :=
  c9_empty_answer_sentinel
    { currentQuiz := some [exQuestion, exQuestion], quizResults := [] }
    (Json.obj [("quiz", Json.arr [exQuestion, exQuestion])])
    [exQuestion, exQuestion] (Json.str "A") (Json.str "B")
    [Json.str "b", Json.str ""] "d" 1
    rfl rfl rfl rfl rfl (by decide) rfl

/-- Rounding to nearest never overshoots the value by more than one half. -/
theorem roundEven_le (x : ℚ) : (roundEven x : ℚ) ≤ x + 1 / 2 := by
  unfold roundEven
  have h0 : ((⌊x⌋ : ℤ) : ℚ) ≤ x := Int.floor_le x
  have h1 : x < (⌊x⌋ : ℚ) + 1 := Int.lt_floor_add_one x
  split_ifs with hf hg he <;> push_cast <;> linarith

/-- Rounding to nearest never undershoots the value by more than one half. -/
theorem le_roundEven (x : ℚ) : x - 1 / 2 ≤ (roundEven x : ℚ) := by
  unfold roundEven
  have h0 : ((⌊x⌋ : ℤ) : ℚ) ≤ x := Int.floor_le x
  have h1 : x < (⌊x⌋ : ℚ) + 1 := Int.lt_floor_add_one x
  split_ifs with hf hg he <;> push_cast <;> linarith

/-- Rounding a non-negative rational gives a non-negative integer. -/
theorem roundEven_nonneg (x : ℚ) (hx : 0 ≤ x) : 0 ≤ roundEven x := by
  unfold roundEven
  have h0 : 0 ≤ ⌊x⌋ := Int.floor_nonneg.mpr hx
  split_ifs <;> omega

/-- The fuel-based logarithm agrees with the library one. -/
theorem natLog2_eq (n : ℕ) : natLog2 n = Nat.log2 n := by
  suffices h : ∀ fuel m, m ≤ fuel → natLog2Aux fuel m = Nat.log2 m from h n n le_rfl
  intro fuel
  induction fuel with
  | zero =>
    intro m hm
    obtain rfl : m = 0 := Nat.le_zero.mp hm
    rw [natLog2Aux, Nat.log2]
    norm_num
  | succ f ih =>
    intro m hm
    rw [natLog2Aux, Nat.log2]
    by_cases h2 : 2 ≤ m
    · rw [if_pos h2, if_pos h2, ih (m / 2) (by omega)]
    · rw [if_neg h2, if_neg h2]

/-- Two-sided characterization of `ratLog2` on positive rationals. -/
theorem ratLog2_spec (q : ℚ) (hq : 0 < q) :
    (2 : ℚ) ^ ratLog2 q ≤ q ∧ q < (2 : ℚ) ^ (ratLog2 q + 1) := by
  obtain ⟨n, hn⟩ : ∃ n : ℕ, q.num = (n : ℤ) :=
    ⟨q.num.toNat, (Int.toNat_of_nonneg (le_of_lt (Rat.num_pos.mpr hq))).symm⟩
  have hn0 : n ≠ 0 := by
    intro h0
    rw [h0] at hn
    exact absurd (Rat.num_eq_zero.mp (by exact_mod_cast hn)) (ne_of_gt hq)
  have hd0 : q.den ≠ 0 := q.den_nz
  have hdpos : (0 : ℚ) < (q.den : ℚ) := by
    exact_mod_cast Nat.pos_of_ne_zero hd0
  have hqnd : q = (n : ℚ) / (q.den : ℚ) := by
    conv_lhs => rw [← Rat.num_div_den q]
    rw [hn]
    push_cast
    ring
  have ha1 : (2 : ℚ) ^ ((Nat.log2 n : ℤ)) ≤ (n : ℚ) := by
    rw [zpow_natCast]
    exact_mod_cast Nat.log2_self_le hn0
  have ha2 : (n : ℚ) < 2 ^ ((Nat.log2 n : ℤ) + 1) := by
    rw [show ((Nat.log2 n : ℤ) + 1) = ((Nat.log2 n + 1 : ℕ) : ℤ) by push_cast; ring,
      zpow_natCast]
    exact_mod_cast Nat.lt_log2_self
  have hb1 : (2 : ℚ) ^ ((Nat.log2 q.den : ℤ)) ≤ (q.den : ℚ) := by
    rw [zpow_natCast]
    exact_mod_cast Nat.log2_self_le hd0
  have hb2 : (q.den : ℚ) < 2 ^ ((Nat.log2 q.den : ℤ) + 1) := by
    rw [show ((Nat.log2 q.den : ℤ) + 1) = ((Nat.log2 q.den + 1 : ℕ) : ℤ) by push_cast; ring,
      zpow_natCast]
    exact_mod_cast Nat.lt_log2_self
  have hnpos : (0 : ℚ) < (n : ℚ) := by
    exact_mod_cast Nat.pos_of_ne_zero hn0
  have key1 : (2 : ℚ) ^ ((Nat.log2 n : ℤ) - (Nat.log2 q.den : ℤ) - 1) * (q.den : ℚ)
      < (n : ℚ) := by
    calc (2 : ℚ) ^ ((Nat.log2 n : ℤ) - (Nat.log2 q.den : ℤ) - 1) * (q.den : ℚ)
        < (2 : ℚ) ^ ((Nat.log2 n : ℤ) - (Nat.log2 q.den : ℤ) - 1) *
            2 ^ ((Nat.log2 q.den : ℤ) + 1) := by
          exact mul_lt_mul_of_pos_left hb2 (zpow_pos two_pos _)
      _ = (2 : ℚ) ^ ((Nat.log2 n : ℤ)) := by
          rw [← zpow_add₀ (two_ne_zero : (2:ℚ) ≠ 0)]
          ring_nf
      _ ≤ (n : ℚ) := ha1
  have hlow : (2 : ℚ) ^ ((Nat.log2 n : ℤ) - (Nat.log2 q.den : ℤ) - 1) < q := by
    have h := (lt_div_iff₀ hdpos).mpr key1
    rwa [← hqnd] at h
  have key2 : (n : ℚ)
      < (2 : ℚ) ^ ((Nat.log2 n : ℤ) - (Nat.log2 q.den : ℤ) + 1) * (q.den : ℚ) := by
    calc (n : ℚ) < 2 ^ ((Nat.log2 n : ℤ) + 1) := ha2
      _ = (2 : ℚ) ^ ((Nat.log2 n : ℤ) - (Nat.log2 q.den : ℤ) + 1) *
            2 ^ ((Nat.log2 q.den : ℤ)) := by
          rw [← zpow_add₀ (two_ne_zero : (2:ℚ) ≠ 0)]
          ring_nf
      _ ≤ (2 : ℚ) ^ ((Nat.log2 n : ℤ) - (Nat.log2 q.den : ℤ) + 1) * (q.den : ℚ) := by
          exact mul_le_mul_of_nonneg_left hb1 (le_of_lt (zpow_pos two_pos _))
  have hupp : q < (2 : ℚ) ^ ((Nat.log2 n : ℤ) - (Nat.log2 q.den : ℤ) + 1) := by
    have h := (div_lt_iff₀ hdpos).mpr key2
    rwa [← hqnd] at h
  have hnum : q.num.toNat = n := by rw [hn]; exact Int.toNat_natCast n
  simp only [ratLog2, natLog2_eq, hnum]
  by_cases hc : q < (2 : ℚ) ^ ((Nat.log2 n : ℤ) - (Nat.log2 q.den : ℤ))
  · rw [if_pos hc]
    constructor
    · exact le_of_lt (by simpa using hlow)
    · simpa using hc
  · rw [if_neg hc]
    exact ⟨not_lt.mp hc, hupp⟩

/-- `ratLog2` is bounded by any exponent whose power dominates the value. -/
theorem ratLog2_le_of_lt (q : ℚ) (k : ℤ) (hq : 0 < q) (h : q < (2 : ℚ) ^ (k + 1)) :
    ratLog2 q ≤ k := by
  by_contra hgt
  push_neg at hgt
  have h1 := (ratLog2_spec q hq).1
  have h2 : (2 : ℚ) ^ (k + 1) ≤ 2 ^ ratLog2 q :=
    zpow_le_zpow_right₀ one_le_two (by omega)
  linarith

/-- The binary64 rounding of a positive value is non-negative. -/
theorem flPos_nonneg (q : ℚ) (hq : 0 < q) : 0 ≤ flPos q := by
  unfold flPos
  have hr : 0 ≤ roundEven (q / 2 ^ (max (ratLog2 q - 52) (-1074))) :=
    roundEven_nonneg _ (by positivity)
  exact mul_nonneg (by exact_mod_cast hr) (le_of_lt (zpow_pos two_pos _))

/-- The binary64 rounding of a positive value below `2 ^ (k+1)` overshoots
by at most half an ulp of that binade. -/
theorem flPos_le (q : ℚ) (k : ℤ) (hq : 0 < q) (hk : q < (2 : ℚ) ^ (k + 1))
    (hk2 : (-1074 : ℤ) ≤ k - 52) :
    flPos q ≤ q + (2 : ℚ) ^ (k - 53) := by
  unfold flPos
  set p := max (ratLog2 q - 52) (-1074) with hp
  have hple : p ≤ k - 52 := by
    have := ratLog2_le_of_lt q k hq hk
    exact max_le (by omega) hk2
  have hpw : (0 : ℚ) < 2 ^ p := zpow_pos two_pos _
  have h2 : ((roundEven (q / 2 ^ p) : ℤ) : ℚ) * 2 ^ p ≤ (q / 2 ^ p + 1 / 2) * 2 ^ p :=
    mul_le_mul_of_nonneg_right (roundEven_le _) hpw.le
  have h3 : (q / 2 ^ p + 1 / 2) * 2 ^ p = q + 2 ^ p / 2 := by
    field_simp
    ring
  have h4 : (2 : ℚ) ^ p / 2 = 2 ^ (p - 1) := by
    rw [zpow_sub₀ (two_ne_zero : (2:ℚ) ≠ 0), zpow_one]
  have h5 : (2 : ℚ) ^ (p - 1) ≤ 2 ^ (k - 53) :=
    zpow_le_zpow_right₀ one_le_two (by omega)
  rw [h3, h4] at h2
  linarith

/-- Non-negativity of the binary64 rounding. -/
theorem fl_nonneg (q : ℚ) (h : 0 ≤ q) : 0 ≤ fl q := by
  unfold fl
  split_ifs with h0 h1
  · exact le_rfl
  · exact flPos_nonneg q h1
  · exact absurd (h.lt_of_ne (Ne.symm h0)) h1

/-- Overshoot bound for the binary64 rounding of values in `[0, 2^(k+1))`. -/
theorem fl_le (q : ℚ) (k : ℤ) (h0 : 0 ≤ q) (hk : q < (2 : ℚ) ^ (k + 1))
    (hk2 : (-1074 : ℤ) ≤ k - 52) :
    fl q ≤ q + (2 : ℚ) ^ (k - 53) := by
  unfold fl
  split_ifs with hz hpos
  · subst hz
    positivity
  · exact flPos_le q k hpos hk hk2
  · exact absurd (h0.lt_of_ne (Ne.symm hz)) hpos

/-- The percentage computed on doubles always lands in `[0, 100]` when the
score does not exceed the total. -/
theorem jsPercentage_bounds (s t : ℕ) (hst : s ≤ t) (ht : 0 < t) :
    0 ≤ jsPercentage s t ∧ jsPercentage s t ≤ 100 := by
  unfold jsPercentage
  have htq : (0 : ℚ) < (t : ℚ) := by exact_mod_cast ht
  have hq1a : 0 ≤ (s : ℚ) / (t : ℚ) := by positivity
  have hq1b : (s : ℚ) / (t : ℚ) ≤ 1 :=
    div_le_one_of_le (by exact_mod_cast hst) (le_of_lt htq)
  have h2eq : (2 : ℚ) ^ ((0 : ℤ) + 1) = 2 := by norm_num
  have hq1c : (s : ℚ) / (t : ℚ) < (2 : ℚ) ^ ((0 : ℤ) + 1) := by
    rw [h2eq]; linarith
  have hfa : 0 ≤ fl ((s : ℚ) / (t : ℚ)) := fl_nonneg _ hq1a
  have hfb : fl ((s : ℚ) / (t : ℚ)) ≤ (s : ℚ) / (t : ℚ) + (2 : ℚ) ^ ((0 : ℤ) - 53) :=
    fl_le _ 0 hq1a hq1c (by norm_num)
  have hten : (2 : ℚ) ^ (-10 : ℤ) = 1 / 1024 := by
    rw [show (-10 : ℤ) = -((10 : ℕ) : ℤ) by norm_num, zpow_neg, zpow_natCast]
    norm_num
  have hsmall1 : (2 : ℚ) ^ ((0 : ℤ) - 53) ≤ 1 / 1024 := by
    calc (2 : ℚ) ^ ((0 : ℤ) - 53) ≤ 2 ^ (-10 : ℤ) :=
          zpow_le_zpow_right₀ one_le_two (by norm_num)
      _ = 1 / 1024 := hten
  have hxa : 0 ≤ fl ((s : ℚ) / (t : ℚ)) * 100 := by positivity
  have hxb : fl ((s : ℚ) / (t : ℚ)) * 100 ≤ 100 + 100 / 1024 := by
    have hfb2 : fl ((s : ℚ) / (t : ℚ)) ≤ 1 + 1 / 1024 := by linarith
    calc fl ((s : ℚ) / (t : ℚ)) * 100 ≤ (1 + 1 / 1024) * 100 :=
          mul_le_mul_of_nonneg_right hfb2 (by norm_num)
      _ = 100 + 100 / 1024 := by ring
  have h256 : (2 : ℚ) ^ ((7 : ℤ) + 1) = 256 := by
    rw [show (7 : ℤ) + 1 = ((8 : ℕ) : ℤ) by norm_num, zpow_natCast]
    norm_num
  have hxc : fl ((s : ℚ) / (t : ℚ)) * 100 < (2 : ℚ) ^ ((7 : ℤ) + 1) := by
    rw [h256]; linarith
  have hfx : fl (fl ((s : ℚ) / (t : ℚ)) * 100) ≤
      fl ((s : ℚ) / (t : ℚ)) * 100 + (2 : ℚ) ^ ((7 : ℤ) - 53) :=
    fl_le _ 7 hxa hxc (by norm_num)
  have hfxa : 0 ≤ fl (fl ((s : ℚ) / (t : ℚ)) * 100) := fl_nonneg _ hxa
  have hsmall2 : (2 : ℚ) ^ ((7 : ℤ) - 53) ≤ 1 / 1024 := by
    calc (2 : ℚ) ^ ((7 : ℤ) - 53) ≤ 2 ^ (-10 : ℤ) :=
          zpow_le_zpow_right₀ one_le_two (by norm_num)
      _ = 1 / 1024 := hten
  constructor
  · apply Int.floor_nonneg.mpr
    linarith
  · have hlt : fl (fl ((s : ℚ) / (t : ℚ)) * 100) + 1 / 2 < ((101 : ℤ) : ℚ) := by
      push_cast
      linarith
    have := Int.floor_lt.mpr hlt
    omega

/-- C5, amended.  For every accepted submission (truthy name and surname,
answers an array of the quiz's length) against a non-empty current quiz,
the returned score is the number of indices at which the submitted answer
is strictly equal to the question's `correct` value, and the returned
percentage is `Math.round` applied to the binary64 value of
`(score/total)*100` — which can differ from exact round-half-up of
`score/total*100` (see the counterexample, 23 of 40 answering 57 where
the exact value 57.5 rounds to 58) — and always lies between 0 and 100. -/
theorem c5_score_and_percentage (st : ServerState) (nm sn : Json)
    (ans quiz : List Json) (now : String)
    (hq : st.currentQuiz = some quiz) (hnz : quiz ≠ [])
    (hnm : jsTruthy nm = true) (hsn : jsTruthy sn = true)
    (hlen : ans.length = quiz.length) :
    (postQuizSubmit st ⟨some nm, some sn, some (Json.arr ans)⟩ now).1.status = 200 ∧
    (postQuizSubmit st ⟨some nm, some sn, some (Json.arr ans)⟩ now).1.score =
      some (countMatches ans quiz) ∧
    (postQuizSubmit st ⟨some nm, some sn, some (Json.arr ans)⟩ now).1.percentage =
      some (jsPercentage (countMatches ans quiz) quiz.length) ∧
    ∀ p, (postQuizSubmit st ⟨some nm, some sn, some (Json.arr ans)⟩ now).1.percentage =
      some p → 0 ≤ p ∧ p ≤ 100 := by
  have hnn2 : ¬ ¬ (jsTruthy nm = true ∧ jsTruthy sn = true ∧ jsTruthy (Json.arr ans) = true) :=
    not_not_intro ⟨hnm, hsn, rfl⟩
  have hlv : jsStrictEqOpt (jsLenVal (Json.arr ans)) (some (.num quiz.length)) = true := by
    simp [jsLenVal, jsStrictEqOpt, jsStrictEq, hlen]
  have hlv2 : ¬ ¬ jsStrictEqOpt (jsLenVal (Json.arr ans)) (some (.num quiz.length)) = true :=
    not_not_intro hlv
  have hsc : (processQuestions (Json.arr ans) 0 quiz).1 = countMatches ans quiz := by
    rw [processQuestions_score]
    unfold countMatches
    apply List.countP_congr
    intro k hk
    simp
  have hcm_le : countMatches ans quiz ≤ quiz.length := by
    unfold countMatches
    calc (List.range quiz.length).countP
          (fun i => jsStrictEqOpt (ans.get? i) (getField (quiz.getD i Json.null) "correct"))
        ≤ (List.range quiz.length).length := List.countP_le_length _
      _ = quiz.length := List.length_range _
  have hpos : 0 < quiz.length := List.length_pos.mpr hnz
  have hb := jsPercentage_bounds (countMatches ans quiz) quiz.length hcm_le hpos
  simp only [postQuizSubmit, hq, if_neg hnn2, if_neg hlv2]
  refine ⟨trivial, ?_, ?_, ?_⟩
  · rw [hsc]
  · rw [hsc]
  · intro p hp
    rw [hsc] at hp
    have hpe : p = jsPercentage (countMatches ans quiz) quiz.length :=
      (Option.some.injEq _ _ ▸ hp).symm
    rw [hpe]
    exact hb

/-- Witness for C5: a one-question quiz answered correctly yields 200,
score counted by strict equality, the double-rounded percentage, and a
value inside the 0..100 bounds. -/
theorem c5_witness :
    (postQuizSubmit { currentQuiz := some [exQuestion], quizResults := [] }
        ⟨some (Json.str "N"), some (Json.str "S"), some (Json.arr [Json.str "b"])⟩ "d").1.status
      = 200 ∧
    (postQuizSubmit { currentQuiz := some [exQuestion], quizResults := [] }
        ⟨some (Json.str "N"), some (Json.str "S"), some (Json.arr [Json.str "b"])⟩ "d").1.score
      = some (countMatches [Json.str "b"] [exQuestion]) ∧
    (postQuizSubmit { currentQuiz := some [exQuestion], quizResults := [] }
        ⟨some (Json.str "N"), some (Json.str "S"), some (Json.arr [Json.str "b"])⟩ "d").1.percentage
      = some (jsPercentage (countMatches [Json.str "b"] [exQuestion]) 1) ∧
    0 ≤ jsPercentage (countMatches [Json.str "b"] [exQuestion]) 1 ∧
    jsPercentage (countMatches [Json.str "b"] [exQuestion]) 1 ≤ 100 := by
  have h := c5_score_and_percentage
    { currentQuiz := some [exQuestion], quizResults := [] }
    (Json.str "N") (Json.str "S") [Json.str "b"] [exQuestion] "d"
    rfl (by simp) rfl rfl rfl
  exact ⟨h.1, h.2.1, h.2.2.1, (h.2.2.2 _ h.2.2.1).1, (h.2.2.2 _ h.2.2.1).2⟩
